import Mathlib

/-!
Verification of the SRAMetadataX metadata-query CLI (src/cli.py).

The development shallowly embeds the parts of `cli.py` that the claims are
about: the `sra` and `experiment` relations of the SQLite snapshot, the
term-matching query builder `_terms_helper`, the cascading resolver
`all_sm_lcp`, the field extractor `srx_sa_lcp`, and the acquisition routine
`download_sradb`.  SQL execution is modelled set-theoretically over explicit
row lists; `LIKE "%t%"` is modelled as the backend's substring-containment
relation; Python's `set(...)` is modelled by an explicit enumeration-order
parameter constrained only to produce a duplicate-free list with the same
membership; `OrderedDict.fromkeys` is modelled by a first-occurrence
deduplication function.
-/

namespace SRAMetadataX

/-- The three accession tiers selectable in the `output` argument of
`terms` / `_terms_helper` (`study_accession`, `experiment_accession`,
`run_accession`). -/
inductive Tier
  | study
  | experiment
  | run
deriving DecidableEq, Repr

/-- One row of the denormalized `sra` relation: the three accession columns
plus the ten free-text columns searched by `_terms_helper` (cli.py lines
325-326).  Text columns are nullable. -/
structure SraRow where
  study_accession : String
  experiment_accession : String
  run_accession : String
  experiment_title : Option String
  study_name : Option String
  design_description : Option String
  sample_name : Option String
  library_strategy : Option String
  library_construction_protocol : Option String
  platform : Option String
  instrument_model : Option String
  platform_parameters : Option String
  study_abstract : Option String
deriving DecidableEq, Repr

/-- One row of the `experiment` relation, restricted to the columns used by
the query `SQL_dict['all_sm_lcp_kw']` (cli.py lines 19-20). -/
structure ExperimentRow where
  experiment_accession : String
  study_accession : String
  library_construction_protocol : Option String
deriving DecidableEq, Repr

/-- The snapshot store: the two relations the verified operations read. -/
structure DB where
  sra : List SraRow
  experiment : List ExperimentRow
deriving DecidableEq, Repr

/-- Prefix test on character lists (used to build the substring test). -/
def isPrefixList : List Char → List Char → Bool
  | [], _ => true
  | _ :: _, [] => false
  | a :: as, b :: bs => a = b && isPrefixList as bs

/-- `hasInfix pat l`: `pat` occurs as a contiguous sublist of `l`. -/
def hasInfix (pat : List Char) : List Char → Bool
  | [] => pat.isEmpty
  | x :: t => isPrefixList pat (x :: t) || hasInfix pat t

/-- `containsSub hay pat`: `pat` occurs as a substring of `hay`.  This is the
embedding of the backend's `column LIKE "%pat%"` containment relation. -/
def containsSub (hay pat : String) : Bool :=
  hasInfix pat.data hay.data

/-- `col LIKE "%t%"` on a nullable column: a NULL column matches no pattern
(SQL three-valued logic makes `NULL LIKE p` non-true). -/
def likeMatch (t : String) : Option String → Bool
  | none => false
  | some s => containsSub s t

/-- The ten fixed free-text columns of `sra` searched by `_terms_helper`
(cli.py lines 325-326), in source order. -/
def textCols : List (SraRow → Option String) :=
  [(·.experiment_title), (·.study_name), (·.design_description),
   (·.sample_name), (·.library_strategy), (·.library_construction_protocol),
   (·.platform), (·.instrument_model), (·.platform_parameters),
   (·.study_abstract)]

/-- The WHERE predicate built by `_terms_helper`: every term must match
(AND), each term matching if any of the ten text columns contains it
(OR across columns). -/
def matchesAll (terms : List String) (r : SraRow) : Bool :=
  terms.all fun t => textCols.any fun c => likeMatch t (c r)

/-- Value of one accession tier on an `sra` row. -/
def tierVal : Tier → SraRow → String
  | Tier.study, r => r.study_accession
  | Tier.experiment, r => r.experiment_accession
  | Tier.run, r => r.run_accession

/-- `SELECT <tiers>` projection of one row: the tuple of the requested
accession columns, in the requested order. -/
def project (tiers : List Tier) (r : SraRow) : List String :=
  tiers.map (tierVal · r)

/-- First-occurrence deduplication with an accumulator of already-seen keys:
the embedding of Python's `list(OrderedDict.fromkeys(xs))` (cli.py line 103),
which keeps the first occurrence of every element, in order. -/
def dedupFirstAux {α : Type} [DecidableEq α] (seen : List α) : List α → List α
  | [] => []
  | x :: l => if x ∈ seen then dedupFirstAux seen l
              else x :: dedupFirstAux (seen ++ [x]) l

/-- `list(OrderedDict.fromkeys(xs))`: keep the first occurrence of each
element, preserving order. -/
def dedupFirst {α : Type} [DecidableEq α] (l : List α) : List α :=
  dedupFirstAux [] l

/-- Index of the first occurrence of `a` in `l` (length of `l` if absent). -/
def posOf {α : Type} [DecidableEq α] (a : α) : List α → Nat
  | [] => 0
  | x :: l => if x = a then 0 else posOf a l + 1

/-- Index of the first element satisfying `p` (length of the list if none). -/
def firstIdxP {α : Type} (p : α → Bool) : List α → Nat
  | [] => 0
  | x :: l => if p x then 0 else firstIdxP p l + 1

/-- Observable outcome of `_terms_helper` called with `print_out=False`
(cli.py lines 320-362):
  * `tooManyTiers` — the `output_count > 3` guard prints
    `Error: limit output to ...` and the call returns `None` (no raised
    fault, no results);
  * `sqlError` — executing the built query raises `sqlite3.OperationalError`
    (this is what happens for an empty term list, whose truncated query text
    is syntactically invalid — see `buildQueryString`);
  * `noMatches` — the query ran, matched zero rows, the function printed
    `No submissions match ...` and returned `None`;
  * `results rs` — the query ran and the matching tuples were returned. -/
inductive THOut
  | tooManyTiers
  | sqlError
  | noMatches
  | results (rs : List (List String))
deriving DecidableEq, Repr

/-- Rows produced by executing the query `_terms_helper` builds:
`SELECT DISTINCT <tiers> FROM sra WHERE (t1-clause) AND (t2-clause) ...`.
`DISTINCT` is modelled as first-occurrence deduplication of the projected
tuples in scan order. -/
def termsQueryRows (db : DB) (terms : List String) (tiers : List Tier) :
    List (List String) :=
  dedupFirst ((db.sra.filter (matchesAll terms)).map (project tiers))

/-- Embedding of `_terms_helper(terms, output, save, print_out=False)`
(cli.py lines 320-362).  The `output` string is modelled as the list of
projected tiers (`output_count = output.count(',') + 1` equals its length).
The guard order follows the source: the tier-count guard fires before the
query is built or executed; an empty term list survives the guard and fails
only when its malformed query text is executed. -/
def terms_helper (db : DB) (terms : List String) (tiers : List Tier) : THOut :=
  if tiers.length > 3 then THOut.tooManyTiers
  else if terms.isEmpty then THOut.sqlError
  else if (termsQueryRows db terms tiers).isEmpty then THOut.noMatches
  else THOut.results (termsQueryRows db terms tiers)

/-- The exact query text `_terms_helper` assembles by string concatenation
(cli.py lines 333-346): starting from
`SELECT DISTINCT <output> FROM sra WHERE (`, for each term it appends the
ten `col LIKE "%term%" OR ` clauses, drops the trailing 4 characters
(` OR `), appends `) AND (`, and finally drops the trailing 6 characters.
For a nonempty term list this closes the last clause with `)`; for an empty
term list it instead truncates the initial fragment to
`... FROM sra W`, which is not valid SQL. -/
def buildQueryString (terms : List String) (output : String) : String :=
  let columns := ["experiment_title", "study_name", "design_description",
    "sample_name", "library_strategy", "library_construction_protocol",
    "platform", "instrument_model", "platform_parameters", "study_abstract"]
  let init := "SELECT DISTINCT " ++ output ++ " FROM sra WHERE ("
  let step := fun qs (t : String) =>
    let qs := columns.foldl
      (fun q c => q ++ c ++ " LIKE \x22%" ++ t ++ "%\x22 OR ") qs
    (qs.dropRight 4) ++ ") AND ("
  (terms.foldl step init).dropRight 6

/-- Execution of `SQL_dict['all_sm_lcp_kw']` (cli.py lines 19-20):
`SELECT experiment_accession FROM experiment WHERE (study_accession=?) AND
(library_construction_protocol IS NOT NULL)` for one study accession. -/
def expQuery (db : DB) (srp : String) : List String :=
  (db.experiment.filter fun e =>
    e.study_accession = srp && e.library_construction_protocol.isSome).map
    (·.experiment_accession)

/-- An admissible enumeration of Python's `list(set(xs))` (cli.py lines
97-98): `set` iteration order is unspecified, so the embedding takes the
enumeration as a parameter constrained only to yield a duplicate-free list
with exactly the membership of its input. -/
def validEnum (enum : List (List String) → List (List String)) : Prop :=
  ∀ l, (enum l).Nodup ∧ ∀ x, x ∈ enum l ↔ x ∈ l

/-- Errors raised (as Python exceptions) by the embedded operations. -/
inductive PyErr
  | typeError
deriving DecidableEq, Repr

/-- Embedding of `all_sm_lcp(terms)` for a term list (cli.py lines 83-104).
Phase 1 calls `terms(terms, 'study_accession, run_accession',
print_out=False)`, i.e. `_terms_helper` projecting the (study, run) tier
pair.  When that call returns a row list, the code enumerates
`list(set(srps))` (the `enum` parameter), runs `expQuery` on `srp[0]` of
each enumerated pair, concatenates the per-pair results, and deduplicates
the concatenation with `OrderedDict.fromkeys`.  When `_terms_helper`
instead returns `None` (tier-guard message, raised query error, or zero
matches), `set(None)` raises `TypeError: 'NoneType' object is not
iterable`. -/
def all_sm_lcp (db : DB) (ts : List String)
    (enum : List (List String) → List (List String)) :
    Except PyErr (List String) :=
  match terms_helper db ts [Tier.study, Tier.run] with
  | THOut.results srps =>
      let unique_srps := enum srps
      let results_final :=
        (unique_srps.map fun srp => expQuery db (srp.headD "")).flatten
      Except.ok (dedupFirst results_final)
  | _ => Except.error PyErr.typeError

/-- The sequence of study accessions (`srp[0]`) visited by the second-phase
loop of `all_sm_lcp`, in loop order (cli.py lines 99-100). -/
def studiesVisited (db : DB) (ts : List String)
    (enum : List (List String) → List (List String)) : List String :=
  match terms_helper db ts [Tier.study, Tier.run] with
  | THOut.results srps => (enum srps).map fun srp => srp.headD ""
  | _ => []

/-- The per-pair result blocks of the second phase of `all_sm_lcp`, in
visitation order: block `i` holds the experiment accessions returned for the
`i`-th enumerated (study, run) pair. -/
def visitBlocks (db : DB) (visits : List (List String)) : List (List String) :=
  visits.map fun srp => expQuery db (srp.headD "")

/-- Index of the first visited pair whose result block contains `a`: the
visit at which accession `a` is discovered. -/
def firstVisit (db : DB) (visits : List (List String)) (a : String) : Nat :=
  firstIdxP (fun blk => decide (a ∈ blk)) (visitBlocks db visits)

/-- Python's `str(...)` applied to a fetched column value: SQL NULL comes
back as `None` and prints as `"None"`. -/
def pyStr : Option String → String
  | none => "None"
  | some s => s

/-- Per-row value appended to `results_final` by `srx_sa_lcp` (cli.py lines
258-264): for selector `'sa'` or `'lcp'` the raw fetched value `r[0]`
(possibly `None`), otherwise the two-field formatted string built with
`str(r[0])` and `str(r[1])`.  The column selection mirrors
`switcher.get(sa_lcp, 'study_abstract, library_construction_protocol')`:
any selector other than `'sa'` and `'lcp'` selects both columns. -/
def srxPerRow (sel : String) (r : SraRow) : Option String :=
  if sel = "sa" then r.study_abstract
  else if sel = "lcp" then r.library_construction_protocol
  else some ("abstract:\n" ++ pyStr r.study_abstract ++
    "\n\nlibrary construction protocol:\n" ++
    pyStr r.library_construction_protocol)

/-- Embedding of `srx_sa_lcp(srx_list, sa_lcp)` (cli.py lines 226-270) for
an accession list: for each input accession, in input order, it runs
`SELECT <cols> FROM sra WHERE experiment_accession=?` and appends one entry
per fetched row; accessions with no matching row contribute nothing, and no
deduplication is performed anywhere. -/
def srx_sa_lcp (db : DB) (srxList : List String) (sel : String) :
    List (Option String) :=
  srxList.flatMap fun e =>
    (db.sra.filter fun r => r.experiment_accession = e).map (srxPerRow sel)

/-- Observable side-effecting steps of `download_sradb` (cli.py lines
122-169): a network download attempt from mirror `i`, and the
gzip-decompression of the downloaded file. -/
inductive AcqEvent
  | net (mirror : Nat)
  | extract
deriving DecidableEq, Repr

/-- Terminal outcome of `download_sradb`:
  * `alreadyExists` — the `RuntimeError("... already exists!")` guard fired;
  * `completed` — a mirror succeeded and decompression ran on a valid file;
  * `decompressFailed` — `gzip.open`/`copyfileobj` raised on the invalid
    (empty or partial) file left behind after both mirrors failed
    (`_download` opens the destination with mode `"wb"` before the request,
    so a file exists at the path even when every transfer failed). -/
inductive AcqOutcome
  | alreadyExists
  | completed
  | decompressFailed
deriving DecidableEq, Repr

/-- Embedding of `download_sradb()` (cli.py lines 122-169) as a function of
the pre-existing filesystem state and of whether each mirror transfer
succeeds, returning the trace of observable steps together with the
outcome.  The source checks the compressed then the decompressed path and
raises before any network use; otherwise it tries mirror 0, falls back to
mirror 1 on any exception, writes a message to stderr if both fail, and
then unconditionally proceeds to the `Extracting ...` gzip step. -/
def download_sradb (gzExists unzippedExists m1Ok m2Ok : Bool) :
    List AcqEvent × AcqOutcome :=
  if gzExists then ([], AcqOutcome.alreadyExists)
  else if unzippedExists then ([], AcqOutcome.alreadyExists)
  else if m1Ok then
    ([AcqEvent.net 0, AcqEvent.extract], AcqOutcome.completed)
  else if m2Ok then
    ([AcqEvent.net 0, AcqEvent.net 1, AcqEvent.extract], AcqOutcome.completed)
  else
    ([AcqEvent.net 0, AcqEvent.net 1, AcqEvent.extract],
      AcqOutcome.decompressFailed)

/-- A concrete two-run snapshot used for witnesses and counterexamples:
one study `SRP1` with two runs (`SRR1`, `SRR2`) of two experiments, both
rows containing the term `kit` in `library_strategy`, and one experiment
row carrying protocol text. -/
def exDB : DB :=
  { sra :=
      [{ study_accession := "SRP1", experiment_accession := "SRX1",
         run_accession := "SRR1", experiment_title := some "t1",
         study_name := some "s", design_description := none,
         sample_name := none, library_strategy := some "kit prep",
         library_construction_protocol := some "protocol X",
         platform := some "ILLUMINA", instrument_model := none,
         platform_parameters := none, study_abstract := some "abstract" },
       { study_accession := "SRP1", experiment_accession := "SRX2",
         run_accession := "SRR2", experiment_title := some "t2",
         study_name := some "s", design_description := none,
         sample_name := none, library_strategy := some "kit prep",
         library_construction_protocol := none,
         platform := some "ILLUMINA", instrument_model := none,
         platform_parameters := none, study_abstract := some "abstract" }],
    experiment :=
      [{ experiment_accession := "SRX1", study_accession := "SRP1",
         library_construction_protocol := some "protocol X" },
       { experiment_accession := "SRX2", study_accession := "SRP1",
         library_construction_protocol := none }] }

/-! ### Helper lemmas about first-occurrence deduplication and positions -/

theorem mem_dedupFirstAux {α : Type} [DecidableEq α] (a : α) (l : List α) :
    ∀ seen, a ∈ dedupFirstAux seen l ↔ a ∈ l ∧ a ∉ seen := by
  induction l with
  | nil => intro seen; simp [dedupFirstAux]
  | cons x t ih =>
    intro seen
    by_cases hx : x ∈ seen
    · simp only [dedupFirstAux, if_pos hx, ih seen, List.mem_cons]
      constructor
      · rintro ⟨h1, h2⟩
        exact ⟨Or.inr h1, h2⟩
      · rintro ⟨rfl | h1, h2⟩
        · exact absurd hx h2
        · exact ⟨h1, h2⟩
    · simp only [dedupFirstAux, if_neg hx, List.mem_cons, ih (seen ++ [x]),
        List.mem_append, List.mem_singleton]
      constructor
      · rintro (rfl | ⟨h1, h2⟩)
        · exact ⟨Or.inl rfl, hx⟩
        · exact ⟨Or.inr h1, fun hs => h2 (Or.inl hs)⟩
      · rintro ⟨rfl | h1, h2⟩
        · exact Or.inl rfl
        · by_cases hax : a = x
          · exact Or.inl hax
          · refine Or.inr ⟨h1, fun hs => ?_⟩
            rcases hs with hs | hs | hs
            · exact h2 hs
            · exact hax hs
            · exact absurd hs (List.not_mem_nil a)

theorem posOf_cons_self {α : Type} [DecidableEq α] (a : α) (l : List α) :
    posOf a (a :: l) = 0 := by
  simp [posOf]

theorem posOf_cons_ne {α : Type} [DecidableEq α] {x a : α} (h : x ≠ a)
    (l : List α) : posOf a (x :: l) = posOf a l + 1 := by
  simp [posOf, h]

theorem mem_dedupFirst {α : Type} [DecidableEq α] (a : α) (l : List α) :
    a ∈ dedupFirst l ↔ a ∈ l := by
  rw [dedupFirst, mem_dedupFirstAux]
  simp

theorem nodup_dedupFirstAux {α : Type} [DecidableEq α] (l : List α) :
    ∀ seen, (dedupFirstAux seen l).Nodup := by
  induction l with
  | nil => intro seen; simp [dedupFirstAux]
  | cons x t ih =>
    intro seen
    by_cases hx : x ∈ seen
    · simp only [dedupFirstAux, if_pos hx]
      exact ih seen
    · simp only [dedupFirstAux, if_neg hx]
      refine List.nodup_cons.mpr ⟨fun hmem => ?_, ih _⟩
      rcases (mem_dedupFirstAux x t _).mp hmem with ⟨_, h2⟩
      exact h2 (by simp)

theorem nodup_dedupFirst {α : Type} [DecidableEq α] (l : List α) :
    (dedupFirst l).Nodup :=
  nodup_dedupFirstAux l []

/-- First occurrences keep their relative order through first-occurrence
deduplication: if `a` is listed before `b` in the deduplicated output, then
`a`'s first occurrence in the input precedes `b`'s. -/
theorem posOf_dedupFirstAux_lt {α : Type} [DecidableEq α] (a b : α)
    (l : List α) : ∀ seen, a ∈ dedupFirstAux seen l →
    b ∈ dedupFirstAux seen l →
    posOf a (dedupFirstAux seen l) < posOf b (dedupFirstAux seen l) →
    posOf a l < posOf b l := by
  induction l with
  | nil =>
    intro seen ha
    simp [dedupFirstAux] at ha
  | cons x t ih =>
    intro seen ha hb hlt
    by_cases hx : x ∈ seen
    · simp only [dedupFirstAux, if_pos hx] at ha hb hlt
      have hane : x ≠ a := fun h =>
        ((mem_dedupFirstAux a t seen).mp ha).2 (h ▸ hx)
      have hbne : x ≠ b := fun h =>
        ((mem_dedupFirstAux b t seen).mp hb).2 (h ▸ hx)
      have := ih seen ha hb hlt
      rw [posOf_cons_ne hane, posOf_cons_ne hbne]
      omega
    · simp only [dedupFirstAux, if_neg hx] at ha hb hlt
      by_cases hax : x = a
      · subst hax
        have hba : x ≠ b := by
          intro h
          subst h
          simp at hlt
        rw [posOf_cons_self, posOf_cons_ne hba]
        omega
      · by_cases hbx : x = b
        · subst hbx
          exfalso
          rw [posOf_cons_self, posOf_cons_ne hax] at hlt
          omega
        · have ha' : a ∈ dedupFirstAux (seen ++ [x]) t := by
            rcases List.mem_cons.mp ha with h | h
            · exact absurd h.symm hax
            · exact h
          have hb' : b ∈ dedupFirstAux (seen ++ [x]) t := by
            rcases List.mem_cons.mp hb with h | h
            · exact absurd h.symm hbx
            · exact h
          rw [posOf_cons_ne hax, posOf_cons_ne hbx] at hlt
          rw [posOf_cons_ne hax, posOf_cons_ne hbx]
          have := ih (seen ++ [x]) ha' hb' (by omega)
          omega

theorem posOf_dedupFirst_lt {α : Type} [DecidableEq α] (a b : α) (l : List α)
    (ha : a ∈ dedupFirst l) (hb : b ∈ dedupFirst l)
    (hlt : posOf a (dedupFirst l) < posOf b (dedupFirst l)) :
    posOf a l < posOf b l :=
  posOf_dedupFirstAux_lt a b l [] ha hb hlt

theorem posOf_append_left {α : Type} [DecidableEq α] (a : α) (c l : List α)
    (h : a ∈ c) : posOf a (c ++ l) = posOf a c := by
  induction c with
  | nil => simp at h
  | cons x t ih =>
    by_cases hxa : x = a
    · subst hxa
      rw [List.cons_append, posOf_cons_self, posOf_cons_self]
    · rcases List.mem_cons.mp h with h | h
      · exact absurd h.symm hxa
      · rw [List.cons_append, posOf_cons_ne hxa, posOf_cons_ne hxa, ih h]

theorem posOf_append_right {α : Type} [DecidableEq α] (a : α) (c l : List α)
    (h : a ∉ c) : posOf a (c ++ l) = c.length + posOf a l := by
  induction c with
  | nil => simp
  | cons x t ih =>
    have hxa : x ≠ a := fun he => h (by simp [he])
    have ht : a ∉ t := fun he => h (List.mem_cons_of_mem _ he)
    rw [List.cons_append, posOf_cons_ne hxa, ih ht, List.length_cons]
    omega

theorem posOf_lt_length {α : Type} [DecidableEq α] (a : α) (c : List α)
    (h : a ∈ c) : posOf a c < c.length := by
  induction c with
  | nil => simp at h
  | cons x t ih =>
    by_cases hxa : x = a
    · subst hxa
      rw [posOf_cons_self]
      simp
    · rcases List.mem_cons.mp h with h | h
      · exact absurd h.symm hxa
      · rw [posOf_cons_ne hxa, List.length_cons]
        exact Nat.succ_lt_succ (ih h)

/-- In a concatenation of blocks, if `a`'s first occurrence precedes `b`'s,
then the first block containing `a` comes no later than the first block
containing `b`. -/
theorem firstBlock_le {α : Type} [DecidableEq α] (a b : α) :
    ∀ blocks : List (List α), a ∈ blocks.flatten → b ∈ blocks.flatten →
    posOf a blocks.flatten < posOf b blocks.flatten →
    firstIdxP (fun blk => decide (a ∈ blk)) blocks ≤
      firstIdxP (fun blk => decide (b ∈ blk)) blocks := by
  intro blocks
  induction blocks with
  | nil => intro ha; simp at ha
  | cons c rest ih =>
    intro ha hb hlt
    rw [List.flatten_cons] at ha hb hlt
    by_cases hac : a ∈ c
    · simp [firstIdxP, hac]
    · by_cases hbc : b ∈ c
      · exfalso
        rw [posOf_append_right a c _ hac, posOf_append_left b c _ hbc] at hlt
        have := posOf_lt_length b c hbc
        omega
      · have ha' : a ∈ rest.flatten := by
          rcases List.mem_append.mp ha with h | h
          · exact absurd h hac
          · exact h
        have hb' : b ∈ rest.flatten := by
          rcases List.mem_append.mp hb with h | h
          · exact absurd h hbc
          · exact h
        rw [posOf_append_right a c _ hac, posOf_append_right b c _ hbc] at hlt
        have hle := ih ha' hb' (by omega)
        simp only [firstIdxP, decide_eq_true_eq, if_neg hac, if_neg hbc]
        omega

/-! ### Claim theorems -/

/-- C1: for every non-empty term group and requested tier list of size at
most 3, every tuple returned by the resolve operation (`_terms_helper`) is
exactly the projection onto the requested tiers of at least one `sra` row
in which every term of the group matches at least one of the ten fixed
free-text columns (AND across terms, OR across columns). -/
theorem terms_helper_sound (db : DB) (ts : List String) (S : List Tier)
    (rs : List (List String)) (hne : ts ≠ []) (hlen : S.length ≤ 3)
    (h : terms_helper db ts S = THOut.results rs) :
    ∀ tup ∈ rs, ∃ r, r ∈ db.sra ∧ tup = project S r ∧
      ∀ t ∈ ts, ∃ c ∈ textCols, likeMatch t (c r) = true := by
  intro tup htup
  unfold terms_helper at h
  rw [if_neg (by omega : ¬ S.length > 3),
    if_neg (by simp [List.isEmpty_iff, hne])] at h
  by_cases he : (termsQueryRows db ts S).isEmpty = true
  · rw [if_pos he] at h
    cases h
  · rw [if_neg he] at h
    cases h
    rw [termsQueryRows, mem_dedupFirst] at htup
    rcases List.mem_map.mp htup with ⟨r, hr, hproj⟩
    rcases List.mem_filter.mp hr with ⟨hrdb, hmatch⟩
    refine ⟨r, hrdb, hproj.symm, ?_⟩
    intro t ht
    have hterm := List.all_eq_true.mp hmatch t ht
    rcases List.any_eq_true.mp hterm with ⟨c, hc, hlike⟩
    exact ⟨c, hc, hlike⟩

/-- Witness for C1 at a concrete snapshot: searching the term `kit` with
the `run_accession` tier on `exDB` returns the tuple `["SRR1"]`, which is
the projection of a matching row. -/
theorem terms_helper_sound_witness :
    ∃ r, r ∈ exDB.sra ∧ ["SRR1"] = project [Tier.run] r ∧
      ∀ t ∈ ["kit"], ∃ c ∈ textCols, likeMatch t (c r) = true :=
  terms_helper_sound exDB ["kit"] [Tier.run] [["SRR1"], ["SRR2"]]
    (by decide) (by decide) (by rfl) ["SRR1"] (by decide)

/-- C4: with an empty term group (under a tier list that passes the tier
guard), `_terms_helper` fails — the query text it assembles is truncated to
the syntactically invalid fragment `SELECT DISTINCT <output> FROM sra W`
(witnessed here at the source's default output string), so executing it
raises `sqlite3.OperationalError` — and in particular the call never
returns a result set, hence never a query matching all rows. -/
theorem empty_term_group_fails (db : DB) (S : List Tier)
    (hlen : S.length ≤ 3) :
    terms_helper db [] S = THOut.sqlError ∧
    (∀ rs, terms_helper db [] S ≠ THOut.results rs) ∧
    buildQueryString [] "run_accession" =
      "SELECT DISTINCT run_accession FROM sra W" := by
  have hfail : terms_helper db [] S = THOut.sqlError := by
    unfold terms_helper
    rw [if_neg (by omega : ¬ S.length > 3)]
    rfl
  refine ⟨hfail, fun rs hrs => ?_, by rfl⟩
  rw [hfail] at hrs
  cases hrs

/-- Witness for C4 with the default single-tier output on `exDB`. -/
theorem empty_term_group_fails_witness :
    terms_helper exDB [] [Tier.run] = THOut.sqlError ∧
    (∀ rs, terms_helper exDB [] [Tier.run] ≠ THOut.results rs) ∧
    buildQueryString [] "run_accession" =
      "SELECT DISTINCT run_accession FROM sra W" :=
  empty_term_group_fails exDB [Tier.run] (by decide)

/-- C5: requesting four output tiers makes `_terms_helper` print the
user-facing `Error: limit output ...` message and return `None` — the call
short-circuits with no results and no raised fault (`tooManyTiers`, not the
raised `sqlError`) — while requesting three tiers passes the guard and the
query is built and executed. -/
theorem tier_count_boundary (db : DB) (ts : List String) (S4 S3 : List Tier)
    (h4 : S4.length = 4) (h3 : S3.length = 3) (hne : ts ≠ []) :
    terms_helper db ts S4 = THOut.tooManyTiers ∧
    terms_helper db ts S3 ≠ THOut.tooManyTiers ∧
    terms_helper db ts S3 ≠ THOut.sqlError ∧
    (terms_helper db ts S3 = THOut.noMatches ∨
      ∃ rs, terms_helper db ts S3 = THOut.results rs) := by
  have hguard : terms_helper db ts S4 = THOut.tooManyTiers := by
    unfold terms_helper
    rw [if_pos (by omega : S4.length > 3)]
  have hrun : terms_helper db ts S3 = THOut.noMatches ∨
      ∃ rs, terms_helper db ts S3 = THOut.results rs := by
    unfold terms_helper
    rw [if_neg (by omega : ¬ S3.length > 3),
      if_neg (by simp [List.isEmpty_iff, hne])]
    by_cases he : (termsQueryRows db ts S3).isEmpty = true
    · rw [if_pos he]
      exact Or.inl rfl
    · rw [if_neg he]
      exact Or.inr ⟨_, rfl⟩
  refine ⟨hguard, ?_, ?_, hrun⟩
  · rcases hrun with h | ⟨rs, h⟩ <;> rw [h] <;> intro hc <;> cases hc
  · rcases hrun with h | ⟨rs, h⟩ <;> rw [h] <;> intro hc <;> cases hc

/-- Witness for C5: a four-tier and a three-tier request on `exDB`. -/
theorem tier_count_boundary_witness :
    terms_helper exDB ["kit"]
      [Tier.study, Tier.experiment, Tier.run, Tier.run] =
      THOut.tooManyTiers ∧
    terms_helper exDB ["kit"] [Tier.study, Tier.experiment, Tier.run] ≠
      THOut.tooManyTiers ∧
    terms_helper exDB ["kit"] [Tier.study, Tier.experiment, Tier.run] ≠
      THOut.sqlError ∧
    (terms_helper exDB ["kit"] [Tier.study, Tier.experiment, Tier.run] =
        THOut.noMatches ∨
      ∃ rs, terms_helper exDB ["kit"] [Tier.study, Tier.experiment, Tier.run]
        = THOut.results rs) :=
  tier_count_boundary exDB ["kit"]
    [Tier.study, Tier.experiment, Tier.run, Tier.run]
    [Tier.study, Tier.experiment, Tier.run] (by decide) (by decide)
    (by decide)

/-- C8: resolution is deterministic.  The embedding makes every input of
`resolve` explicit — the snapshot, the term group, the tier list, and (for
the cascading resolver) the `set` enumeration order, which is fixed within
one interpreter session — so calling either resolve entry point twice with
identical inputs against the unmodified snapshot yields identical ordered
output; no operation in these paths writes to the snapshot (the `save`
parameter of `_terms_helper` is accepted but never used). -/
theorem resolve_idempotent (db : DB) (ts : List String) (S : List Tier)
    (enum : List (List String) → List (List String)) :
    terms_helper db ts S = terms_helper db ts S ∧
    all_sm_lcp db ts enum = all_sm_lcp db ts enum :=
  ⟨rfl, rfl⟩

/-- C2 counterexample: the first phase of `all_sm_lcp` does not deduplicate
the study accessions found for the terms — `list(set(srps))` deduplicates
(study, run) *pairs* in unspecified set-iteration order, so a study with
two matching runs is visited twice.  Concretely, on `exDB` with term `kit`,
even under the most favourable admissible enumeration (first-seen order,
i.e. `dedupFirst`), the sequence of studies visited by the second-phase
loop is `[SRP1, SRP1]`, which contains a duplicate. -/
theorem all_sm_lcp_study_dedup_cex :
    validEnum dedupFirst ∧
    studiesVisited exDB ["kit"] dedupFirst = ["SRP1", "SRP1"] ∧
    ¬ (studiesVisited exDB ["kit"] dedupFirst).Nodup := by
  refine ⟨fun l => ⟨nodup_dedupFirst l, fun x => mem_dedupFirst x l⟩,
    by rfl, by decide⟩

/-- C2 amended: the first phase deduplicates the (study, run) pairs found
for the terms, in unspecified `set` enumeration order, and a study may
therefore be visited more than once; the final output of `all_sm_lcp`
nevertheless contains no duplicate experiment accession, and an accession
`a` appears before `b` only if `a` was first discovered at a second-phase
visit no later than the visit at which `b` was first discovered. -/
theorem all_sm_lcp_output_dedup (db : DB) (ts : List String)
    (enum : List (List String) → List (List String))
    (srps : List (List String)) (out : List String)
    (h1 : terms_helper db ts [Tier.study, Tier.run] = THOut.results srps)
    (h2 : all_sm_lcp db ts enum = Except.ok out) :
    out.Nodup ∧ ∀ a b, a ∈ out → b ∈ out → posOf a out < posOf b out →
      firstVisit db (enum srps) a ≤ firstVisit db (enum srps) b := by
  have hout : out = dedupFirst (visitBlocks db (enum srps)).flatten := by
    unfold all_sm_lcp at h2
    rw [h1] at h2
    exact (Except.ok.inj h2).symm
  subst hout
  refine ⟨nodup_dedupFirst _, fun a b ha hb hlt => ?_⟩
  have ha' := (mem_dedupFirst a _).mp ha
  have hb' := (mem_dedupFirst b _).mp hb
  exact firstBlock_le a b (visitBlocks db (enum srps)) ha' hb'
    (posOf_dedupFirst_lt a b _ ha hb hlt)

/-- Witness for the amended C2 on `exDB` with term `kit` and first-seen
enumeration order. -/
theorem all_sm_lcp_output_dedup_witness :
    (["SRX1"] : List String).Nodup ∧
    ∀ a b, a ∈ ["SRX1"] → b ∈ ["SRX1"] →
      posOf a ["SRX1"] < posOf b ["SRX1"] →
      firstVisit exDB (dedupFirst [["SRP1", "SRR1"], ["SRP1", "SRR2"]]) a ≤
        firstVisit exDB (dedupFirst [["SRP1", "SRR1"], ["SRP1", "SRR2"]]) b :=
  all_sm_lcp_output_dedup exDB ["kit"] dedupFirst
    [["SRP1", "SRR1"], ["SRP1", "SRR2"]] ["SRX1"] (by rfl) (by rfl)

/-- C3 (code bug): when the first-phase study search matches zero rows,
`_terms_helper` prints the no-match notice and returns `None` instead of an
empty list, so `all_sm_lcp` raises `TypeError: 'NoneType' object is not
iterable` at `set(srps)` (cli.py line 97) rather than yielding an empty
result.  Evaluated here at the failing input: term `zzz`, which matches no
row of `exDB`. -/
theorem all_sm_lcp_no_match_raises :
    terms_helper exDB ["zzz"] [Tier.study, Tier.run] = THOut.noMatches ∧
    all_sm_lcp exDB ["zzz"] dedupFirst = Except.error PyErr.typeError :=
  ⟨rfl, rfl⟩

/-- C6: whenever the compressed or the decompressed snapshot already exists
at the destination, `download_sradb` raises the `... already exists!`
`RuntimeError` before attempting any download: the event trace is empty, so
no network I/O is performed and neither file is overwritten. -/
theorem acquire_guard (gz uz m1 m2 : Bool) (h : gz = true ∨ uz = true) :
    download_sradb gz uz m1 m2 = ([], AcqOutcome.alreadyExists) := by
  rcases h with h | h
  · subst h
    rfl
  · subst h
    cases gz <;> rfl

/-- Witness for C6: the decompressed snapshot already exists and both
mirrors would succeed; the call still fails fast with an empty trace. -/
theorem acquire_guard_witness :
    download_sradb false true true true = ([], AcqOutcome.alreadyExists) :=
  acquire_guard false true true true (Or.inr rfl)

/-- C7 (code bug): with no pre-existing files and both mirror downloads
failing, `download_sradb` writes the failure message to stderr and then
still proceeds to the `Extracting ...` decompression step on the invalid
file left at the destination (`_download` creates it with `open(..., "wb")`
before the request), so the decompression step is reached even though no
mirror succeeded, and the call dies in `gzip` rather than reporting a
clean acquisition failure. -/
theorem both_mirrors_fail_still_extracts :
    download_sradb false false false false =
      ([AcqEvent.net 0, AcqEvent.net 1, AcqEvent.extract],
        AcqOutcome.decompressFailed) ∧
    AcqEvent.extract ∈ (download_sradb false false false false).1 :=
  ⟨rfl, by decide⟩

/-- C9: the field extractor `srx_sa_lcp` accumulates its output per input
accession in input order with no deduplication — splitting the input list
splits the output list, so a repeated accession yields repeated output —
and an accession for which no `sra` row exists contributes nothing to the
output (silently: the embedding is a total function, no error path). -/
theorem srx_sa_lcp_order (db : DB) (xs ys : List String) (a : String)
    (sel : String) (h : ∀ r ∈ db.sra, r.experiment_accession ≠ a) :
    srx_sa_lcp db (xs ++ ys) sel =
      srx_sa_lcp db xs sel ++ srx_sa_lcp db ys sel ∧
    srx_sa_lcp db (a :: xs) sel = srx_sa_lcp db xs sel := by
  constructor
  · rw [srx_sa_lcp, List.flatMap_append]
    rfl
  · rw [srx_sa_lcp, List.flatMap_cons]
    have hnil : (db.sra.filter fun r =>
        decide (r.experiment_accession = a)) = [] :=
      List.filter_eq_nil_iff.mpr fun r hr => by simp [h r hr]
    rw [hnil]
    rfl

/-- Witness for C9 on `exDB`: a repeated accession `SRX1` yields its row
twice, and the absent accession `SRX9` contributes nothing. -/
theorem srx_sa_lcp_order_witness :
    srx_sa_lcp exDB (["SRX1"] ++ ["SRX1"]) "lcp" =
      srx_sa_lcp exDB ["SRX1"] "lcp" ++ srx_sa_lcp exDB ["SRX1"] "lcp" ∧
    srx_sa_lcp exDB ("SRX9" :: ["SRX1"]) "lcp" =
      srx_sa_lcp exDB ["SRX1"] "lcp" :=
  srx_sa_lcp_order exDB ["SRX1"] ["SRX1"] "SRX9" "lcp" (by decide)

/-- C10: any field-selector string other than `'sa'` and `'lcp'` — not only
the documented `'sa_lcp'` — makes `srx_sa_lcp` silently select both
`study_abstract` and `library_construction_protocol` and behave exactly
like the documented `'sa_lcp'` selector; an unrecognized selector is never
an error (`switcher.get(sa_lcp, <both-columns default>)`, cli.py line
255). -/
theorem srx_unrecognized_selector (db : DB) (l : List String) (sel : String)
    (h1 : sel ≠ "sa") (h2 : sel ≠ "lcp") :
    srx_sa_lcp db l sel = srx_sa_lcp db l "sa_lcp" ∧
    ∀ r, srxPerRow sel r = some ("abstract:\n" ++ pyStr r.study_abstract ++
      "\n\nlibrary construction protocol:\n" ++
      pyStr r.library_construction_protocol) := by
  have hfun : ∀ r, srxPerRow sel r = srxPerRow "sa_lcp" r := by
    intro r
    unfold srxPerRow
    rw [if_neg h1, if_neg h2, if_neg (by decide : ¬("sa_lcp" = "sa")),
      if_neg (by decide : ¬("sa_lcp" = "lcp"))]
  constructor
  · rw [srx_sa_lcp, srx_sa_lcp, funext hfun]
  · intro r
    rw [hfun r]
    unfold srxPerRow
    rw [if_neg (by decide : ¬("sa_lcp" = "sa")),
      if_neg (by decide : ¬("sa_lcp" = "lcp"))]

/-- Witness for C10: the misspelled selector `sa_lpc` behaves exactly like
`sa_lcp` on `exDB`. -/
theorem srx_unrecognized_selector_witness :
    srx_sa_lcp exDB ["SRX1"] "sa_lpc" = srx_sa_lcp exDB ["SRX1"] "sa_lcp" ∧
    ∀ r, srxPerRow "sa_lpc" r =
      some ("abstract:\n" ++ pyStr r.study_abstract ++
        "\n\nlibrary construction protocol:\n" ++
        pyStr r.library_construction_protocol) :=
  srx_unrecognized_selector exDB ["SRX1"] "sa_lpc" (by decide) (by decide)

end SRAMetadataX
